import Mathlib

/-!
Verification of the temporal-reasoning core of the PWKM task toolkit.

The definitions below are shallow embeddings of the Python functions in
`scripts/date_utils.py`, `scripts/task_manager.py`, `scripts/gcal_query.py`
and `scripts/session_timer.py`.  Dates are year/month/day triples of natural
numbers (proleptic Gregorian calendar, as Python's `datetime`), timestamps
are integer seconds, and Python exceptions are modelled with `Except` /
`Option` results.
-/

deriving instance DecidableEq for Except

namespace PWKM

/-- Python `str.lower()` (character-wise lowercasing). -/
def strLower (s : String) : String := String.mk (s.data.map Char.toLower)

/-- Whitespace stripped from both ends of a character list. -/
def trimList (l : List Char) : List Char :=
  ((l.dropWhile Char.isWhitespace).reverse.dropWhile Char.isWhitespace).reverse

/-- Python `str.strip()` with no argument. -/
def strTrim (s : String) : String := String.mk (trimList s.data)

/-- Accumulator pass behind `splitWhitespace`. -/
def wordsAux : List Char → List Char → List String
  | [], acc => if acc = [] then [] else [String.mk acc.reverse]
  | c :: cs, acc =>
    if Char.isWhitespace c then
      if acc = [] then wordsAux cs [] else String.mk acc.reverse :: wordsAux cs []
    else wordsAux cs (c :: acc)

/-- Python `str.split()` with no argument: split on whitespace runs,
dropping empty pieces. -/
def splitWhitespace (s : String) : List String := wordsAux s.data []

/-- A calendar date (Python `datetime` restricted to its date part). -/
structure Date where
  year : Nat
  month : Nat
  day : Nat
deriving DecidableEq, Repr

/-- Gregorian leap-year rule, as implemented by Python's `calendar`/`datetime`. -/
def isLeap (y : Nat) : Bool :=
  (y % 4 == 0 && y % 100 != 0) || y % 400 == 0

/-- Number of days in a month of a given year. -/
def daysInMonth (y m : Nat) : Nat :=
  if m = 2 then (if isLeap y then 29 else 28)
  else if m = 4 ∨ m = 6 ∨ m = 9 ∨ m = 11 then 30
  else 31

/-- The successor day, rolling over month and year boundaries
(the one-day step of Python's `timedelta` addition). -/
def nextDay (d : Date) : Date :=
  if d.day < daysInMonth d.year d.month then ⟨d.year, d.month, d.day + 1⟩
  else if d.month < 12 then ⟨d.year, d.month + 1, 1⟩
  else ⟨d.year + 1, 1, 1⟩

/-- `d + timedelta(days=k)` for a Python datetime `d`. -/
def addDays (d : Date) : Nat → Date
  | 0 => d
  | k + 1 => nextDay (addDays d k)

/-- Days in all years strictly before year `y` (proleptic Gregorian). -/
def daysBeforeYear (y : Nat) : Nat :=
  365 * (y - 1) + (y - 1) / 4 - (y - 1) / 100 + (y - 1) / 400

/-- Days in the months of year `y` strictly before month `m`. -/
def daysBeforeMonth (y : Nat) : Nat → Nat
  | 0 => 0
  | m + 1 => if m = 0 then 0 else daysBeforeMonth y m + daysInMonth y m

/-- Proleptic-Gregorian ordinal of a date (0001-01-01 has ordinal 1),
matching Python's `datetime.toordinal`. -/
def toOrdinal (d : Date) : Nat :=
  daysBeforeYear d.year + daysBeforeMonth d.year d.month + d.day

/-- Day of week with Monday = 0 .. Sunday = 6, matching Python's
`datetime.weekday()` (0001-01-01 was a Monday). -/
def weekday (d : Date) : Nat :=
  (toOrdinal d + 6) % 7

/-- Strict lexicographic order on dates, matching Python `datetime` comparison
for midnight datetimes. -/
def dateLt (a b : Date) : Prop :=
  a.year < b.year ∨ (a.year = b.year ∧
    (a.month < b.month ∨ (a.month = b.month ∧ a.day < b.day)))

instance (a b : Date) : Decidable (dateLt a b) := by
  unfold dateLt; infer_instance

/-- Boolean version of `dateLt`. -/
def dateLtB (a b : Date) : Bool := decide (dateLt a b)

/-- Non-strict date comparison. -/
def dateLeB (a b : Date) : Bool := dateLtB a b || decide (a = b)

/-- `d + relativedelta(months=k)` of `dateutil`: advance the year/month pair
and clamp the day to the last valid day of the target month. -/
def addMonthsClamped (d : Date) (k : Nat) : Date :=
  let tm := d.month - 1 + k
  let y := d.year + tm / 12
  let m := tm % 12 + 1
  ⟨y, m, min d.day (daysInMonth y m)⟩

/-- `d + relativedelta(years=k)` of `dateutil`: advance the year and clamp
the day (only Feb 29 is ever clamped). -/
def addYearsClamped (d : Date) (k : Nat) : Date :=
  ⟨d.year + k, d.month, min d.day (daysInMonth (d.year + k) d.month)⟩

/-- The `days_until` offset of `nth_weekday_of_month`:
`(weekday - first_day.weekday()) % 7` with Python's nonnegative `%`. -/
def first_weekday_offset (year month wd : Nat) : Nat :=
  (((wd : Int) - (weekday ⟨year, month, 1⟩ : Int)) % 7).toNat

/-- `nth_weekday_of_month` of `date_utils.py` / `task_manager.py`: first
occurrence of `wd` on or after the 1st, advanced by `n - 1` weeks; `none`
models the `ValueError` raised when the month-number check fails. -/
def nth_weekday_of_month (year month n wd : Nat) : Option Date :=
  let firstDay : Date := ⟨year, month, 1⟩
  let firstOccurrence := addDays firstDay (first_weekday_offset year month wd)
  let nthOccurrence := addDays firstOccurrence (7 * (n - 1))
  if nthOccurrence.month = month then some nthOccurrence else none

/-- `next_nth_weekday_after` of `date_utils.py` / `task_manager.py`: try the
month after `after`; on failure try one more month; propagate failure. -/
def next_nth_weekday_after (after : Date) (n wd : Nat) : Option Date :=
  let nextMonth := addMonthsClamped after 1
  match nth_weekday_of_month nextMonth.year nextMonth.month n wd with
  | some r => some r
  | none =>
    let nextMonth2 := addMonthsClamped nextMonth 1
    nth_weekday_of_month nextMonth2.year nextMonth2.month n wd

/-- The `ordinals` lookup table shared by both parsers. -/
def ordinalValue (s : String) : Option Nat :=
  if s = "first" ∨ s = "1st" then some 1
  else if s = "second" ∨ s = "2nd" then some 2
  else if s = "third" ∨ s = "3rd" then some 3
  else if s = "fourth" ∨ s = "4th" then some 4
  else if s = "fifth" ∨ s = "5th" then some 5
  else none

/-- The `WEEKDAYS` lookup table (Monday = 0 .. Sunday = 6). -/
def weekdayValue (s : String) : Option Nat :=
  if s = "monday" then some 0
  else if s = "tuesday" then some 1
  else if s = "wednesday" then some 2
  else if s = "thursday" then some 3
  else if s = "friday" then some 4
  else if s = "saturday" then some 5
  else if s = "sunday" then some 6
  else none

/-- The two-token `{ordinal} {weekday}` grammar shared by
`parse_recurring_pattern` and `parse_task_name_for_pattern`. -/
def twoTokenPhrase (s : String) : Option (Nat × Nat) :=
  match splitWhitespace s with
  | [o, w] =>
    match ordinalValue o, weekdayValue w with
    | some n, some wd => some (n, wd)
    | _, _ => none
  | _ => none

/-- Result values of `parse_recurring_pattern` in `date_utils.py`
(the function has no `unknown` result: unmatched input raises). -/
inductive RecPattern where
  | weekly
  | monthly
  | quarterly
  | yearly
  | nthWeekday (n wd : Nat)
deriving DecidableEq, Repr

/-- `parse_recurring_pattern` of `date_utils.py`: canonical tokens, then the
two-token phrase; anything else raises `ValueError` (modelled as `.error`). -/
def parse_recurring_pattern (pattern : String) : Except String RecPattern :=
  let patternLower := strTrim (strLower pattern)
  if patternLower = "weekly" then .ok .weekly
  else if patternLower = "monthly" then .ok .monthly
  else if patternLower = "quarterly" then .ok .quarterly
  else if patternLower = "yearly" then .ok .yearly
  else
    match twoTokenPhrase patternLower with
    | some (n, wd) => .ok (.nthWeekday n wd)
    | none => .error ("Unknown recurring pattern: " ++ pattern)

/-- Result values of `parse_task_name_for_pattern` in `task_manager.py`:
either `('nth_weekday', n, weekday)` or `('unknown', None, None)`. -/
inductive NamePattern where
  | nthWeekday (n wd : Nat)
  | unknown
deriving DecidableEq, Repr

/-- The contents of the group matched by `re.search(r'\(([^)]+)\)', s)`:
the first `'('` that is followed by a nonempty run of non-`')'` characters
and then a `')'`; `none` when the regex does not match. -/
def firstParenGroup : List Char → Option (List Char)
  | [] => none
  | c :: rest =>
    if c = '(' ∧ rest.contains ')' ∧ rest.takeWhile (fun x => x ≠ ')') ≠ [] then
      some (rest.takeWhile (fun x => x ≠ ')'))
    else firstParenGroup rest

/-- The body applied to group contents in `parse_task_name_for_pattern`:
strip, split, and match the two-token ordinal+weekday grammar. -/
def parse_pattern_text (text : String) : NamePattern :=
  match twoTokenPhrase (strTrim text) with
  | some (n, wd) => .nthWeekday n wd
  | none => .unknown

/-- `parse_task_name_for_pattern` of `task_manager.py`: regex-extract the
first parenthesized group of the lowercased name and run the grammar on it. -/
def parse_task_name_for_pattern (task_name : String) : NamePattern :=
  match firstParenGroup (strLower task_name).data with
  | some grp => parse_pattern_text (String.mk grp)
  | none => .unknown

/-- `calculate_next_due_date` of `task_manager.py`: the frequency field
decides the rule; only `monthly` consults the task name; unrecognized
frequencies raise `ValueError` (modelled as `.error`). -/
def calculate_next_due_date (current_due : Date) (frequency task_name : String) :
    Except String Date :=
  let freqLower := strTrim (strLower frequency)
  if freqLower = "daily" then .ok (addDays current_due 1)
  else if freqLower = "weekly" then .ok (addDays current_due 7)
  else if freqLower = "quarterly" then .ok (addMonthsClamped current_due 3)
  else if freqLower = "yearly" then .ok (addYearsClamped current_due 1)
  else if freqLower = "monthly" then
    match parse_task_name_for_pattern task_name with
    | .nthWeekday n wd =>
      match next_nth_weekday_after current_due n wd with
      | some r => .ok r
      | none => .error "No such nth weekday occurrence"
    | .unknown => .ok (addMonthsClamped current_due 1)
  else .error ("Unknown frequency pattern: " ++ frequency)

/-- Decimal digits with zero padding to width `w` (Python `%02d` / `%04d`). -/
def padNat (w n : Nat) : String :=
  let s := toString n
  if s.length < w then String.mk (List.replicate (w - s.length) '0') ++ s else s

/-- `format_date` of `task_manager.py` (`strftime "%Y-%m-%d"`). -/
def format_date (d : Date) : String :=
  padNat 4 d.year ++ "-" ++ padNat 2 d.month ++ "-" ++ padNat 2 d.day

/-- A task record as produced by `read_tasks` in `task_manager.py`:
`due_date` is `none` when the CSV field is missing or unparseable, while
`due_date_str` keeps the raw CSV text. -/
structure Task where
  name : String
  dueDate : Option Date
  dueDateStr : String
  category : String
  frequency : String
  priority : String
  status : String
  url : String
deriving DecidableEq, Repr

/-- The per-task filter condition shared by `cmd_status` and `cmd_upcoming`:
a due date is present and the status, lowercased, is not `done`. -/
def consideredForDue (t : Task) : Bool :=
  t.dueDate.isSome && strLower t.status ≠ "done"

/-- The `overdue` bucket of `cmd_status`: considered tasks due before today. -/
def overdueTasks (today : Date) (tasks : List Task) : List Task :=
  tasks.filter fun t =>
    match t.dueDate with
    | some d => strLower t.status ≠ "done" && dateLtB d today
    | none => false

/-- The `due_today` bucket of `cmd_status`. -/
def dueTodayTasks (today : Date) (tasks : List Task) : List Task :=
  tasks.filter fun t =>
    match t.dueDate with
    | some d => strLower t.status ≠ "done" && d = today
    | none => false

/-- The `due_tomorrow` bucket of `cmd_status` (`tomorrow = today + 1 day`). -/
def dueTomorrowTasks (today : Date) (tasks : List Task) : List Task :=
  tasks.filter fun t =>
    match t.dueDate with
    | some d => strLower t.status ≠ "done" && d = addDays today 1
    | none => false

/-- The selection of `cmd_upcoming`: considered tasks with
`today <= due <= today + days`. -/
def upcomingTasks (today : Date) (days : Nat) (tasks : List Task) : List Task :=
  tasks.filter fun t =>
    match t.dueDate with
    | some d => strLower t.status ≠ "done" && dateLeB today d && dateLeB d (addDays today days)
    | none => false

/-- The single-task update performed by `cmd_complete` in `task_manager.py`:
recurring tasks are rescheduled (status `To Do`, due date advanced when one
is stored), non-recurring ones are marked `Done`; a `ValueError` raised by
`calculate_next_due_date` propagates (modelled as `.error`). -/
def complete_task (t : Task) : Except String Task :=
  let freqLower := strTrim (strLower t.frequency)
  if t.frequency ≠ "" ∧ freqLower ≠ "one-time" then
    match t.dueDate with
    | some d =>
      match calculate_next_due_date d t.frequency t.name with
      | .ok nd =>
        .ok { t with dueDate := some nd, dueDateStr := format_date nd, status := "To Do" }
      | .error e => .error e
    | none => .ok { t with status := "To Do" }
  else .ok { t with status := "Done" }

/-- A classification result of `classify_event` in `gcal_query.py`. -/
structure Classification where
  status : String
  detail : String
deriving DecidableEq, Repr

/-- The timed-event branch of `classify_event` in `gcal_query.py`.
Timestamps are integer seconds; `int(x.total_seconds() / 60)` on the
nonnegative differences is floor division by 60. -/
def classify_timed_event (start_s end_s now_s : Int) : Classification :=
  if end_s ≤ now_s then ⟨"completed", ""⟩
  else if start_s ≤ now_s then
    ⟨"in_progress", "started " ++ toString ((now_s - start_s).toNat / 60) ++ " min ago"⟩
  else
    let minutesUntil := (start_s - now_s).toNat / 60
    if minutesUntil ≤ 30 then
      ⟨"upcoming_imminent", "in " ++ toString minutesUntil ++ " min"⟩
    else if minutesUntil < 60 then
      ⟨"upcoming_later", "in " ++ toString minutesUntil ++ " min"⟩
    else if minutesUntil % 60 = 0 then
      ⟨"upcoming_later", "in " ++ toString (minutesUntil / 60) ++ "h"⟩
    else
      ⟨"upcoming_later",
        "in " ++ toString (minutesUntil / 60) ++ "h " ++ toString (minutesUntil % 60) ++ "m"⟩

/-- The monthly-review decision of `cmd_audit_check` in `session_timer.py`:
due when today is in the first week and the last recorded review (if any)
has a different month number; `last.month != today.month` compares month
numbers only, ignoring the year. -/
def monthly_review_needed (lastMonthly : Option Date) (today : Date) : Bool :=
  let firstWeek : Bool := decide (today.day ≤ 7)
  match lastMonthly with
  | some lm => firstWeek && lm.month ≠ today.month
  | none => firstWeek

/-! ### Supporting lemmas about the calendar arithmetic -/

theorem daysInMonth_ge (y m : Nat) : 28 ≤ daysInMonth y m := by
  unfold daysInMonth
  split_ifs <;> norm_num

theorem daysInMonth_le (y m : Nat) : daysInMonth y m ≤ 31 := by
  unfold daysInMonth
  split_ifs <;> norm_num

theorem addDays_add (d : Date) (a b : Nat) :
    addDays d (a + b) = addDays (addDays d a) b := by
  induction b with
  | zero => rfl
  | succ k ih => rw [Nat.add_succ]; simp [addDays, ih]

theorem addDays_within (y m day : Nat) :
    ∀ k, day + k ≤ daysInMonth y m → addDays ⟨y, m, day⟩ k = ⟨y, m, day + k⟩ := by
  intro k
  induction k with
  | zero => intro _; rfl
  | succ j ih =>
    intro h
    have hj : day + j ≤ daysInMonth y m := by omega
    simp only [addDays, ih hj, nextDay]
    have hlt : day + j < daysInMonth y m := by omega
    simp [hlt]
    try omega

theorem first_weekday_offset_lt (y m wd : Nat) : first_weekday_offset y m wd < 7 := by
  unfold first_weekday_offset
  have h1 := Int.emod_lt_of_pos ((wd : Int) - (weekday ⟨y, m, 1⟩ : Int))
    (by norm_num : (0 : Int) < 7)
  have h2 := Int.emod_nonneg ((wd : Int) - (weekday ⟨y, m, 1⟩ : Int))
    (by norm_num : (7 : Int) ≠ 0)
  omega

theorem addDays_overflow_month (y m k : Nat) (hm1 : 1 ≤ m) (hm2 : m ≤ 12)
    (hk1 : daysInMonth y m ≤ k) (hk2 : k ≤ 34) :
    (addDays ⟨y, m, 1⟩ k).month ≠ m := by
  have hD28 := daysInMonth_ge y m
  have hD31 := daysInMonth_le y m
  obtain ⟨j, hj⟩ : ∃ j, k = (daysInMonth y m - 1) + (1 + j) := ⟨k - daysInMonth y m, by omega⟩
  rw [hj, addDays_add]
  rw [addDays_within y m 1 (daysInMonth y m - 1) (by omega)]
  have h1d : (1 + (daysInMonth y m - 1)) = daysInMonth y m := by omega
  rw [h1d, addDays_add]
  have hstep : addDays ⟨y, m, daysInMonth y m⟩ 1 = nextDay ⟨y, m, daysInMonth y m⟩ := rfl
  rw [hstep]
  unfold nextDay
  simp only [lt_irrefl, if_false]
  by_cases hm12 : m < 12
  · simp only [hm12, if_true]
    rw [addDays_within y (m + 1) 1 j (by have := daysInMonth_ge y (m + 1); omega)]
    simp
    try omega
  · simp only [hm12, if_false]
    rw [addDays_within (y + 1) 1 1 j (by have := daysInMonth_ge (y + 1) 1; omega)]
    simp
    try omega

/-- The day-of-month that `nth_weekday_of_month` aims at. -/
def nthTargetDay (y m n wd : Nat) : Nat :=
  1 + first_weekday_offset y m wd + 7 * (n - 1)

theorem nth_weekday_eq (y m n wd : Nat) (hm1 : 1 ≤ m) (hm2 : m ≤ 12) (hn5 : n ≤ 5) :
    (nthTargetDay y m n wd ≤ daysInMonth y m →
      nth_weekday_of_month y m n wd = some ⟨y, m, nthTargetDay y m n wd⟩) ∧
    (daysInMonth y m < nthTargetDay y m n wd →
      nth_weekday_of_month y m n wd = none) := by
  have hoff := first_weekday_offset_lt y m wd
  have hk : first_weekday_offset y m wd + 7 * (n - 1) ≤ 34 := by omega
  constructor
  · intro h
    simp only [nth_weekday_of_month]
    rw [← addDays_add]
    rw [addDays_within y m 1 (first_weekday_offset y m wd + 7 * (n - 1))
      (by unfold nthTargetDay at h; omega)]
    simp [nthTargetDay]
    omega
  · intro h
    simp only [nth_weekday_of_month]
    rw [← addDays_add]
    have hmonth := addDays_overflow_month y m (first_weekday_offset y m wd + 7 * (n - 1))
      hm1 hm2 (by unfold nthTargetDay at h; omega) hk
    simp [hmonth]

theorem weekday_nthTargetDay (y m n wd : Nat) (hw : wd ≤ 6) :
    weekday ⟨y, m, nthTargetDay y m n wd⟩ = wd := by
  unfold nthTargetDay first_weekday_offset weekday toOrdinal
  simp only
  set B := daysBeforeYear y + daysBeforeMonth y m with hB
  omega

/-! ### Claim theorems -/

/-- Claim C1 (amended to the caller range `1 ≤ n ≤ 5`): for every year, month
1-12, weekday 0-6 and n in 1..5, `nth_weekday_of_month` succeeds exactly when
the n-th occurrence of the weekday exists within the month — the first
occurrence is day `1 + (weekday - weekday_of_day_1) mod 7`, the n-th is
`7 * (n - 1)` days later — returning that date, which lies in the requested
month and has the requested weekday; when that day falls beyond the month the
call fails (`none`, the `ValueError`), never clamping or wrapping. -/
theorem nth_weekday_of_month_spec (y m n wd : Nat) (hm1 : 1 ≤ m) (hm2 : m ≤ 12)
    (hw : wd ≤ 6) (hn1 : 1 ≤ n) (hn5 : n ≤ 5) :
    (nthTargetDay y m n wd ≤ daysInMonth y m →
      nth_weekday_of_month y m n wd = some ⟨y, m, nthTargetDay y m n wd⟩ ∧
      weekday ⟨y, m, nthTargetDay y m n wd⟩ = wd) ∧
    (daysInMonth y m < nthTargetDay y m n wd →
      nth_weekday_of_month y m n wd = none) := by
  have h := nth_weekday_eq y m n wd hm1 hm2 hn5
  exact ⟨fun hle => ⟨h.1 hle, weekday_nthTargetDay y m n wd hw⟩, h.2⟩

/-- Witness for C1 at the spec's own example: the 2nd Saturday of February
2026 is 2026-02-14, and requesting the 5th Sunday of February 2026 fails. -/
theorem nth_weekday_of_month_spec_witness :
    (nth_weekday_of_month 2026 2 2 5 = some ⟨2026, 2, 14⟩ ∧
      weekday ⟨2026, 2, 14⟩ = 5) ∧
    nth_weekday_of_month 2026 2 5 6 = none := by
  constructor
  · have h := (nth_weekday_of_month_spec 2026 2 2 5 (by decide) (by decide) (by decide)
      (by decide) (by decide)).1 (by decide)
    have ht : nthTargetDay 2026 2 2 5 = 14 := by decide
    rw [ht] at h
    exact h
  · exact (nth_weekday_of_month_spec 2026 2 5 6 (by decide) (by decide) (by decide)
      (by decide) (by decide)).2 (by decide)

set_option maxRecDepth 4000 in
theorem addDays_2026_01_01_371 : addDays ⟨2026, 1, 1⟩ 371 = ⟨2027, 1, 7⟩ := by
  have e : (371 : Nat) = 93 + 93 + 93 + 92 := rfl
  rw [e, addDays_add, addDays_add, addDays_add]
  have h1 : addDays ⟨2026, 1, 1⟩ 93 = ⟨2026, 4, 4⟩ := by decide
  rw [h1]
  have h2 : addDays ⟨2026, 4, 4⟩ 93 = ⟨2026, 7, 6⟩ := by decide
  rw [h2]
  have h3 : addDays ⟨2026, 7, 6⟩ 93 = ⟨2026, 10, 7⟩ := by decide
  rw [h3]
  decide

/-- Counterexample to C1 as frozen (`n ≥ 1` unbounded): January 2026 has no
54th Thursday, yet the call succeeds, returning 2027-01-07 — a date outside
the requested month (its year differs) — because only the month number is
checked. -/
theorem nth_weekday_of_month_counterexample :
    nth_weekday_of_month 2026 1 54 3 = some ⟨2027, 1, 7⟩ ∧
    daysInMonth 2026 1 < nthTargetDay 2026 1 54 3 ∧
    (⟨2027, 1, 7⟩ : Date).year ≠ 2026 := by
  refine ⟨?_, by decide, by decide⟩
  have hoff : first_weekday_offset 2026 1 3 = 0 := by decide
  simp only [nth_weekday_of_month]
  rw [← addDays_add, hoff]
  have h371 : (0 + 7 * (54 - 1) : Nat) = 371 := rfl
  rw [h371, addDays_2026_01_01_371]
  decide

theorem addMonthsClamped_month_bounds (d : Date) (k : Nat) :
    1 ≤ (addMonthsClamped d k).month ∧ (addMonthsClamped d k).month ≤ 12 := by
  simp only [addMonthsClamped]
  omega

theorem nth_weekday_some_shape (y m n wd : Nat) (hm1 : 1 ≤ m) (hm2 : m ≤ 12)
    (hn5 : n ≤ 5) (r : Date) (h : nth_weekday_of_month y m n wd = some r) :
    r.year = y ∧ r.month = m := by
  have he := nth_weekday_eq y m n wd hm1 hm2 hn5
  by_cases hle : nthTargetDay y m n wd ≤ daysInMonth y m
  · rw [he.1 hle] at h
    cases h
    exact ⟨rfl, rfl⟩
  · rw [he.2 (by omega)] at h
    cases h

theorem dateLt_addMonths1 (d : Date) (hm1 : 1 ≤ d.month) (hm2 : d.month ≤ 12)
    (r : Date) (hy : r.year = (addMonthsClamped d 1).year)
    (hm : r.month = (addMonthsClamped d 1).month) : dateLt d r := by
  simp only [addMonthsClamped] at hy hm
  unfold dateLt
  omega

theorem dateLt_addMonths2 (d : Date) (hm1 : 1 ≤ d.month) (hm2 : d.month ≤ 12)
    (r : Date) (hy : r.year = (addMonthsClamped (addMonthsClamped d 1) 1).year)
    (hm : r.month = (addMonthsClamped (addMonthsClamped d 1) 1).month) : dateLt d r := by
  simp only [addMonthsClamped] at hy hm
  unfold dateLt
  omega

/-- Claim C8: for every valid `after_date`, n in 1..5 and weekday,
`next_nth_weekday_after` returns a date strictly after `after_date`; the
result is the n-th weekday of the month following `after_date`'s month when
that exists, otherwise the call falls through to the month after that, whose
failure (if any) propagates unchanged. -/
theorem next_nth_weekday_after_spec (after : Date) (n wd : Nat)
    (hm1 : 1 ≤ after.month) (hm2 : after.month ≤ 12) (hn5 : n ≤ 5) :
    (∀ r, next_nth_weekday_after after n wd = some r → dateLt after r) ∧
    (∀ r, nth_weekday_of_month (addMonthsClamped after 1).year
        (addMonthsClamped after 1).month n wd = some r →
      next_nth_weekday_after after n wd = some r) ∧
    (nth_weekday_of_month (addMonthsClamped after 1).year
        (addMonthsClamped after 1).month n wd = none →
      next_nth_weekday_after after n wd =
        nth_weekday_of_month (addMonthsClamped (addMonthsClamped after 1) 1).year
          (addMonthsClamped (addMonthsClamped after 1) 1).month n wd) := by
  have hb1 := addMonthsClamped_month_bounds after 1
  have hb2 := addMonthsClamped_month_bounds (addMonthsClamped after 1) 1
  refine ⟨?_, ?_, ?_⟩
  · intro r hr
    simp only [next_nth_weekday_after] at hr
    cases hfirst : nth_weekday_of_month (addMonthsClamped after 1).year
        (addMonthsClamped after 1).month n wd with
    | some r0 =>
      rw [hfirst] at hr
      cases hr
      have hs := nth_weekday_some_shape _ _ n wd hb1.1 hb1.2 hn5 _ hfirst
      exact dateLt_addMonths1 after hm1 hm2 _ hs.1 hs.2
    | none =>
      rw [hfirst] at hr
      have hs := nth_weekday_some_shape _ _ n wd hb2.1 hb2.2 hn5 r hr
      exact dateLt_addMonths2 after hm1 hm2 r hs.1 hs.2
  · intro r hr
    simp only [next_nth_weekday_after, hr]
  · intro hr
    simp only [next_nth_weekday_after, hr]

/-- Witness for C8 at the spec's example: the next 2nd Saturday after
2026-01-10 is 2026-02-14, strictly after it. -/
theorem next_nth_weekday_after_spec_witness :
    next_nth_weekday_after ⟨2026, 1, 10⟩ 2 5 = some ⟨2026, 2, 14⟩ ∧
    dateLt ⟨2026, 1, 10⟩ ⟨2026, 2, 14⟩ := by
  have heq : next_nth_weekday_after ⟨2026, 1, 10⟩ 2 5 = some ⟨2026, 2, 14⟩ := by decide
  exact ⟨heq, (next_nth_weekday_after_spec ⟨2026, 1, 10⟩ 2 5 (by decide) (by decide)
    (by decide)).1 _ heq⟩

/-- The year reached by `d + relativedelta(months=k)`. -/
def monthsTargetYear (d : Date) (k : Nat) : Nat := d.year + (d.month - 1 + k) / 12

/-- The month reached by `d + relativedelta(months=k)`. -/
def monthsTargetMonth (d : Date) (k : Nat) : Nat := (d.month - 1 + k) % 12 + 1

/-- Claim C2: advancing a due date by `monthly` (no embedded nth-weekday
pattern in the name), `quarterly` or `yearly` uses clamped month/year
arithmetic: the result sits in the canonical target month, and when the
source day-of-month does not exist there the day becomes the last valid day
of the target month — never an error, never a roll into the following
month. -/
theorem next_due_clamps (d : Date) (name : String)
    (hpat : parse_task_name_for_pattern name = NamePattern.unknown) :
    (calculate_next_due_date d "monthly" name = .ok (addMonthsClamped d 1) ∧
     calculate_next_due_date d "quarterly" name = .ok (addMonthsClamped d 3) ∧
     calculate_next_due_date d "yearly" name = .ok (addYearsClamped d 1)) ∧
    (∀ k, addMonthsClamped d k =
      ⟨monthsTargetYear d k, monthsTargetMonth d k,
        min d.day (daysInMonth (monthsTargetYear d k) (monthsTargetMonth d k))⟩) ∧
    (∀ k, daysInMonth (monthsTargetYear d k) (monthsTargetMonth d k) < d.day →
      (addMonthsClamped d k).day =
        daysInMonth (monthsTargetYear d k) (monthsTargetMonth d k)) ∧
    (daysInMonth (d.year + 1) d.month < d.day →
      addYearsClamped d 1 = ⟨d.year + 1, d.month, daysInMonth (d.year + 1) d.month⟩) := by
  refine ⟨⟨?_, ?_, ?_⟩, ?_, ?_, ?_⟩
  · simp only [calculate_next_due_date]
    rw [if_neg (by decide), if_neg (by decide), if_neg (by decide), if_neg (by decide),
      if_pos (by decide), hpat]
  · simp only [calculate_next_due_date]
    rw [if_neg (by decide), if_neg (by decide), if_pos (by decide)]
  · simp only [calculate_next_due_date]
    rw [if_neg (by decide), if_neg (by decide), if_neg (by decide), if_pos (by decide)]
  · intro k
    simp [addMonthsClamped, monthsTargetYear, monthsTargetMonth]
  · intro k h
    simp only [addMonthsClamped, monthsTargetYear, monthsTargetMonth] at h ⊢
    omega
  · intro h
    simp only [addYearsClamped]
    congr 1
    omega

/-- Witness for C2 at the spec's example: completing a plain monthly task due
2026-01-31 reschedules it to 2026-02-28 (clamped), not 2026-03-03. -/
theorem next_due_clamps_witness :
    calculate_next_due_date ⟨2026, 1, 31⟩ "monthly" "Pay rent" = .ok ⟨2026, 2, 28⟩ := by
  have h := (next_due_clamps ⟨2026, 1, 31⟩ "Pay rent" (by decide)).1.1
  rw [h]
  decide

/-- Claim C4 (amended: `biweekly` is not a recognized token): a frequency
field that lowercases and trims to `daily`, `weekly`, `quarterly` or `yearly`
advances the due date by its fixed rule (+1 day, +7 days, +3 months, +1 year)
regardless of the task's display name, while `biweekly` falls through to the
`Unknown frequency pattern` error. -/
theorem fixed_frequency_rules (d : Date) (freq name : String) :
    (strTrim (strLower freq) = "daily" →
      calculate_next_due_date d freq name = .ok (addDays d 1)) ∧
    (strTrim (strLower freq) = "weekly" →
      calculate_next_due_date d freq name = .ok (addDays d 7)) ∧
    (strTrim (strLower freq) = "quarterly" →
      calculate_next_due_date d freq name = .ok (addMonthsClamped d 3)) ∧
    (strTrim (strLower freq) = "yearly" →
      calculate_next_due_date d freq name = .ok (addYearsClamped d 1)) ∧
    (strTrim (strLower freq) = "biweekly" →
      calculate_next_due_date d freq name =
        .error ("Unknown frequency pattern: " ++ freq)) := by
  refine ⟨?_, ?_, ?_, ?_, ?_⟩ <;> intro h <;> simp [calculate_next_due_date, h]

/-- Witness for C4: `" Daily "` trims and lowercases to the daily rule. -/
theorem fixed_frequency_rules_witness :
    calculate_next_due_date ⟨2026, 3, 5⟩ " Daily " "whatever" = .ok ⟨2026, 3, 6⟩ := by
  have h := (fixed_frequency_rules ⟨2026, 3, 5⟩ " Daily " "whatever").1 (by decide)
  rw [h]
  decide

/-- Counterexample to C4 as frozen: `biweekly` does not advance the due date
by 14 days — it is unrecognized and the computation fails. -/
theorem biweekly_counterexample :
    calculate_next_due_date ⟨2026, 1, 15⟩ "biweekly" "Gym" =
      .error "Unknown frequency pattern: biweekly" ∧
    calculate_next_due_date ⟨2026, 1, 15⟩ "biweekly" "Gym" ≠
      .ok ⟨2026, 1, 29⟩ := by
  constructor
  · decide
  · decide

/-- Claim C5 (amended: the free-text parser raises rather than returning an
Unknown value): an input that matches neither a canonical token nor the
two-token ordinal+weekday phrase makes `parse_recurring_pattern` itself fail
with the `Unknown recurring pattern` error; only the name-embedded extractor
`parse_task_name_for_pattern` returns a non-error `unknown` value. -/
theorem parse_recurring_pattern_unmatched (s : String)
    (h1 : strTrim (strLower s) ≠ "weekly")
    (h2 : strTrim (strLower s) ≠ "monthly")
    (h3 : strTrim (strLower s) ≠ "quarterly")
    (h4 : strTrim (strLower s) ≠ "yearly")
    (h5 : twoTokenPhrase (strTrim (strLower s)) = none) :
    parse_recurring_pattern s = .error ("Unknown recurring pattern: " ++ s) := by
  simp only [parse_recurring_pattern, h5]
  rw [if_neg h1, if_neg h2, if_neg h3, if_neg h4]

/-- Witness for C5: a three-token input reaches the error branch. -/
theorem parse_recurring_pattern_unmatched_witness :
    parse_recurring_pattern "every other day" =
      .error "Unknown recurring pattern: every other day" := by
  have h := parse_recurring_pattern_unmatched "every other day"
    (by decide) (by decide) (by decide) (by decide) (by decide)
  rw [h]
  decide

/-- Counterexample to C5 as frozen: on unmatched input the code's pattern
parser produces an error (the raised `ValueError`), not a non-error Unknown
value; its result type `RecPattern` has no Unknown constructor at all. -/
theorem parse_recurring_pattern_counterexample :
    parse_recurring_pattern "gibberish" =
      .error "Unknown recurring pattern: gibberish" ∧
    parse_task_name_for_pattern "gibberish" = NamePattern.unknown := by
  constructor
  · decide
  · decide

theorem takeWhile_no_close (g1 suf : List Char) (hg1 : ∀ x ∈ g1, x ≠ ')') :
    (g1 ++ ')' :: suf).takeWhile (fun x => x ≠ ')') = g1 := by
  induction g1 with
  | nil => simp
  | cons a t ih =>
    have ha : a ≠ ')' := hg1 a (List.mem_cons_self a t)
    have iht := ih (fun x hx => hg1 x (List.mem_cons_of_mem a hx))
    simp only [List.cons_append, List.takeWhile_cons]
    simp [ha]
    simpa using iht

theorem contains_close (g1 suf : List Char) :
    (g1 ++ ')' :: suf).contains ')' = true := by
  induction g1 with
  | nil => simp [List.contains_cons]
  | cons a t ih => simp [List.contains_cons, ih]

theorem firstParenGroup_first (pre g1 suf : List Char)
    (hpre : '(' ∉ pre) (hg1 : ∀ x ∈ g1, x ≠ ')') (hne : g1 ≠ []) :
    firstParenGroup (pre ++ '(' :: g1 ++ ')' :: suf) = some g1 := by
  induction pre with
  | nil =>
    have htake := takeWhile_no_close g1 suf hg1
    simp only [List.nil_append, firstParenGroup]
    split_ifs with hcond
    · simp only [Option.some.injEq]
      simpa using htake
    · exact absurd ⟨trivial, contains_close g1 suf,
        fun hE => hne (htake.symm.trans hE)⟩ hcond
  | cons a t ih =>
    have ha : a ≠ '(' := fun hcontra => hpre (hcontra ▸ List.mem_cons_self a t)
    simp only [List.cons_append, firstParenGroup]
    rw [if_neg (fun hcond => ha hcond.1)]
    exact ih (fun hmem => hpre (List.mem_cons_of_mem a hmem))

/-- Claim C6 (amended: the scan takes the FIRST parenthesized group): when
the lowercased display name decomposes as `pre ++ "(" ++ g1 ++ ")" ++ suf`
with no `'('` in `pre` and `g1` a nonempty run of non-`')'` characters, the
extracted pattern is the ordinal+weekday grammar applied to `g1` — for a
name with two parenthesized groups this is the first group, not the last. -/
theorem parse_task_name_first_group (name : String) (pre g1 suf : List Char)
    (hsplit : (strLower name).data = pre ++ '(' :: g1 ++ ')' :: suf)
    (hpre : '(' ∉ pre) (hg1 : ∀ x ∈ g1, x ≠ ')') (hne : g1 ≠ []) :
    parse_task_name_for_pattern name = parse_pattern_text (String.mk g1) := by
  unfold parse_task_name_for_pattern
  rw [hsplit, firstParenGroup_first pre g1 suf hpre hg1 hne]

/-- Witness for C6: a name with two groups parses to the first group's
pattern (`first monday`, i.e. n = 1, weekday 0). -/
theorem parse_task_name_first_group_witness :
    parse_task_name_for_pattern "Task (first monday) (second saturday)" =
      NamePattern.nthWeekday 1 0 := by
  have h := parse_task_name_first_group "Task (first monday) (second saturday)"
    ("task ".data) ("first monday".data) (") (second saturday)".data.drop 1)
    (by decide) (by decide) (by decide)
  rw [h (by decide)]
  decide

/-- Counterexample to C6 as frozen: with two parenthesized groups the code
takes the first (`first monday` → n = 1, Monday), not the last
(`second saturday` → n = 2, Saturday). -/
theorem parse_task_name_last_group_counterexample :
    parse_task_name_for_pattern "chore (first monday) (second saturday)" =
      NamePattern.nthWeekday 1 0 ∧
    NamePattern.nthWeekday 1 0 ≠ NamePattern.nthWeekday 2 5 := by
  constructor
  · decide
  · decide

/-- Claim C3: for a timed event, `now >= end` classifies as `completed`
(empty detail); otherwise `now >= start` as `in_progress` with the floored
elapsed minutes; otherwise, with `m` whole minutes until start, `m <= 30` is
`upcoming_imminent` (boundary inclusive), `30 < m < 60` is `upcoming_later`
in minutes, and `m >= 60` is `upcoming_later` in hours, with the minute
remainder appended exactly when it is nonzero. -/
theorem classify_timed_event_spec (s e n : Int) (hse : s ≤ e) :
    (e ≤ n → classify_timed_event s e n = ⟨"completed", ""⟩) ∧
    (n < e → s ≤ n →
      classify_timed_event s e n =
        ⟨"in_progress", "started " ++ toString ((n - s).toNat / 60) ++ " min ago"⟩) ∧
    (n < s →
      ((s - n).toNat / 60 ≤ 30 →
        classify_timed_event s e n =
          ⟨"upcoming_imminent", "in " ++ toString ((s - n).toNat / 60) ++ " min"⟩) ∧
      (30 < (s - n).toNat / 60 → (s - n).toNat / 60 < 60 →
        classify_timed_event s e n =
          ⟨"upcoming_later", "in " ++ toString ((s - n).toNat / 60) ++ " min"⟩) ∧
      (60 ≤ (s - n).toNat / 60 → (s - n).toNat / 60 % 60 = 0 →
        classify_timed_event s e n =
          ⟨"upcoming_later", "in " ++ toString ((s - n).toNat / 60 / 60) ++ "h"⟩) ∧
      (60 ≤ (s - n).toNat / 60 → (s - n).toNat / 60 % 60 ≠ 0 →
        classify_timed_event s e n =
          ⟨"upcoming_later", "in " ++ toString ((s - n).toNat / 60 / 60) ++ "h " ++
            toString ((s - n).toNat / 60 % 60) ++ "m"⟩)) := by
  refine ⟨?_, ?_, ?_⟩
  · intro h
    simp only [classify_timed_event]
    rw [if_pos h]
  · intro h1 h2
    simp only [classify_timed_event]
    rw [if_neg (by omega), if_pos h2]
  · intro h
    refine ⟨?_, ?_, ?_, ?_⟩
    · intro hm
      simp only [classify_timed_event]
      rw [if_neg (by omega), if_neg (by omega), if_pos hm]
    · intro hm1 hm2
      simp only [classify_timed_event]
      rw [if_neg (by omega), if_neg (by omega), if_neg (by omega), if_pos hm2]
    · intro hm1 hmod
      simp only [classify_timed_event]
      rw [if_neg (by omega), if_neg (by omega), if_neg (by omega), if_neg (by omega),
        if_pos hmod]
    · intro hm1 hmod
      simp only [classify_timed_event]
      rw [if_neg (by omega), if_neg (by omega), if_neg (by omega), if_neg (by omega),
        if_neg hmod]

/-- Witness for C3 at the spec's example: a 14:00-15:00 event seen at 14:13
(seconds 50400, 54000, 51180) is in progress, started 13 minutes ago. -/
theorem classify_timed_event_spec_witness :
    classify_timed_event 50400 54000 51180 = ⟨"in_progress", "started 13 min ago"⟩ := by
  have h := (classify_timed_event_spec 50400 54000 51180 (by decide)).2.1
    (by decide) (by decide)
  rw [h]
  decide

/-- Claim C7 (amended: only status `done` is excluded): in every bucket
computed by `cmd_status` and `cmd_upcoming`, a task whose status lowercases
to `done` never appears. -/
theorem done_excluded (today : Date) (days : Nat) (ts : List Task) (t : Task)
    (hdone : strLower t.status = "done") :
    t ∉ overdueTasks today ts ∧ t ∉ dueTodayTasks today ts ∧
    t ∉ dueTomorrowTasks today ts ∧ t ∉ upcomingTasks today days ts := by
  refine ⟨?_, ?_, ?_, ?_⟩ <;>
  · intro hmem
    simp only [overdueTasks, dueTodayTasks, dueTomorrowTasks, upcomingTasks,
      List.mem_filter] at hmem
    obtain ⟨-, hc⟩ := hmem
    cases hdd : t.dueDate <;> rw [hdd] at hc <;> simp [hdone] at hc

/-- A task whose status is `Done`, used to exercise the exclusion. -/
def doneTask : Task :=
  ⟨"Old chore", some ⟨2026, 1, 1⟩, "2026-01-01", "Home", "weekly", "Low", "Done", "u1"⟩

/-- Witness for C7: the `Done` task is kept out of the overdue bucket. -/
theorem done_excluded_witness :
    doneTask ∉ overdueTasks ⟨2026, 2, 1⟩ [doneTask] :=
  (done_excluded ⟨2026, 2, 1⟩ 7 [doneTask] doneTask (by decide)).1

/-- A task whose status is `Completed`, due in the past. -/
def completedTask : Task :=
  ⟨"Taxes", some ⟨2026, 1, 15⟩, "2026-01-15", "Admin", "monthly", "High", "Completed", "u2"⟩

/-- Counterexample to C7 as frozen: a task with status `Completed` is NOT
excluded — it shows up in the overdue bucket, because the filters compare
only against `done`. -/
theorem completed_not_excluded_counterexample :
    overdueTasks ⟨2026, 2, 1⟩ [completedTask] = [completedTask] ∧
    strLower completedTask.status = "completed" := by
  constructor
  · decide
  · decide

/-- Claim C9 (amended: the comparison is between month numbers only, the year
is ignored): the monthly review is due iff today's day-of-month is at most 7
and the last recorded review is absent or carries a different month number;
in particular a review recorded in the same-numbered month of a different
year does NOT make it due. -/
theorem monthly_review_needed_spec (today : Date) :
    (monthly_review_needed none today = true ↔ today.day ≤ 7) ∧
    (∀ lm, monthly_review_needed (some lm) today = true ↔
      today.day ≤ 7 ∧ lm.month ≠ today.month) ∧
    (∀ lm lm2, lm.month = lm2.month →
      monthly_review_needed (some lm) today = monthly_review_needed (some lm2) today) := by
  refine ⟨?_, ?_, ?_⟩
  · simp [monthly_review_needed]
  · intro lm
    simp [monthly_review_needed]
  · intro lm lm2 hmm2
    simp [monthly_review_needed, hmm2]

/-- Witness for C9 at the spec's example: a review recorded on the last day
of January is due again on February 1st. -/
theorem monthly_review_needed_spec_witness :
    monthly_review_needed (some ⟨2026, 1, 31⟩) ⟨2026, 2, 1⟩ = true :=
  ((monthly_review_needed_spec ⟨2026, 2, 1⟩).2.1 ⟨2026, 1, 31⟩).mpr
    ⟨by decide, by decide⟩

/-- Counterexample to C9 as frozen: a review recorded 2025-01-15 and a check
on 2026-01-03 are different calendar months (the claim demands due = true),
yet the code reports not-due because only the month numbers are compared. -/
theorem monthly_review_year_ignored_counterexample :
    monthly_review_needed (some ⟨2025, 1, 15⟩) ⟨2026, 1, 3⟩ = false ∧
    (⟨2026, 1, 3⟩ : Date).day ≤ 7 ∧
    (⟨2025, 1, 15⟩ : Date).year ≠ (⟨2026, 1, 3⟩ : Date).year := by
  refine ⟨by decide, by decide, by decide⟩

/-- Claim C10: completing a stored task changes at most its status and
due-date fields — name, category, frequency, priority and URL are preserved
in every successful outcome — and a recurring task (frequency nonempty, not
`one-time`) with no parseable stored due date is reset to status `To Do`
with its stored due-date text untouched, without error. -/
theorem complete_task_spec (t : Task) :
    (∀ t2, complete_task t = .ok t2 →
      t2.name = t.name ∧ t2.category = t.category ∧ t2.frequency = t.frequency ∧
      t2.priority = t.priority ∧ t2.url = t.url) ∧
    (t.frequency ≠ "" → strTrim (strLower t.frequency) ≠ "one-time" →
      t.dueDate = none →
      complete_task t = .ok { t with status := "To Do" }) := by
  constructor
  · intro t2 h
    simp only [complete_task] at h
    split at h
    · split at h
      · split at h
        · cases h
          simp
        · cases h
      · cases h
        simp
    · cases h
      simp
  · intro h1 h2 h3
    simp only [complete_task, h3]
    rw [if_pos ⟨h1, h2⟩]

/-- A recurring task whose stored due date did not parse. -/
def pendingTask : Task :=
  ⟨"Vacuum", none, "not-a-date", "Home", "monthly", "Low", "Backlog", "u3"⟩

/-- Witness for C10: completing the unparseable-due recurring task resets its
status to `To Do`, keeps the raw due-date text, and does not fail. -/
theorem complete_task_spec_witness :
    complete_task pendingTask = .ok { pendingTask with status := "To Do" } :=
  (complete_task_spec pendingTask).2 (by decide) (by decide) rfl

end PWKM
